import Mathlib

/-
  Formal model of the 2A03 chip-state visualization engine
  (A2A03Visualizer.cpp / A2A03Visualizer.h).

  The node-state buffer (node_states_, a byte[8192] array) is modelled as a
  total function Nat → Nat; only indices below A2A03_MAX_NODES are meaningful
  and every write into the buffer is guarded by the same bounds check as the
  C++ code.  The gate-level simulator (perfect2a03, an external library with
  an opaque state pointer) is modelled abstractly through a SimIface record,
  following the external-interface description of the specification.
-/

/-- Node state constant NODE_INACTIVE = 100 (A2A03Visualizer.cpp, line 31). -/
def NODE_INACTIVE : Nat := 100

/-- Node state constant NODE_ACTIVE = 190 (A2A03Visualizer.cpp, line 32). -/
def NODE_ACTIVE : Nat := 190

/-- Node state constant NODE_HIGHLIGHTED = 255 (A2A03Visualizer.cpp, line 33). -/
def NODE_HIGHLIGHTED : Nat := 255

/-- A2A03_MAX_NODES = 8192 (A2A03Visualizer.h, line 15). -/
def A2A03_MAX_NODES : Nat := 8192

/-- Pointwise update of a byte array modelled as a function. -/
def writeAt (f : Nat → Nat) (idx v : Nat) : Nat → Nat :=
  fun j => if j = idx then v else f j

/-- The byte written for bit i of value:
(value & (1 << i)) ? NODE_ACTIVE : NODE_INACTIVE. -/
def bitVal (value i : Nat) : Nat :=
  if value &&& (1 <<< i) ≠ 0 then NODE_ACTIVE else NODE_INACTIVE

/-- Loop of A2A03Visualizer::setNodeBits (lines 225-231), carrying the running
bit index i.  An entry n is written only when 0 ≤ n < A2A03_MAX_NODES. -/
def setNodeBitsFrom (buf : Nat → Nat) (nodes : List Int) (i : Nat) (value : Nat) :
    Nat → Nat :=
  match nodes with
  | [] => buf
  | n :: rest =>
    let buf2 := if 0 ≤ n ∧ n < (A2A03_MAX_NODES : Int)
      then writeAt buf n.toNat (bitVal value i) else buf
    setNodeBitsFrom buf2 rest (i + 1) value

/-- A2A03Visualizer::setNodeBits (lines 225-231).  The count argument of the
C++ function is the length of the node-index list. -/
def setNodeBits (buf : Nat → Nat) (nodes : List Int) (value : Nat) : Nat → Nat :=
  setNodeBitsFrom buf nodes 0 value

/-- A2A03Visualizer::clearHighlight (lines 635-639): memset of the whole
node-state array to NODE_INACTIVE. -/
def clearHighlight (_buf : Nat → Nat) : Nat → Nat :=
  fun _ => NODE_INACTIVE

/-- Bit position of the last setNodeBits write landing on buffer index j when
iterating over nodes (none when no valid entry maps to j). -/
def lastWrite (nodes : List Int) (j : Nat) : Option Nat :=
  match nodes with
  | [] => none
  | n :: rest =>
    match lastWrite rest j with
    | some k => some (k + 1)
    | none =>
      if 0 ≤ n ∧ n < (A2A03_MAX_NODES : Int) ∧ n.toNat = j then some 0 else none

/-
  Bridge instruction-fetch injection (A2A03Visualizer.cpp, lines 296-310).
  The perfect2a03 global memory image cpu_memory[65536] is modelled as a
  function Nat → Nat.  The loop body declares uint16_t addr = pc + i, so the
  address is computed modulo 2^16 before the addr <= 0xFFFF comparison.
-/

/-- One iteration of the fetch-injection loop (lines 303-310):
uint16_t addr = pc + i; if (addr <= 0xFFFF) cpu_memory[addr] = rom(addr)
else cpu_memory[addr] = 0. -/
def injectStep (rom : Nat → Nat) (pc : Nat) (mem : Nat → Nat) (i : Nat) : Nat → Nat :=
  let addr := (pc + i) % 65536
  if addr ≤ 0xFFFF then writeAt mem addr (rom addr) else writeAt mem addr 0

/-- The fetch-injection loop for i in [0, 9) (max_bytes = 9, line 300). -/
def fetchInject (rom : Nat → Nat) (pc : Nat) (mem : Nat → Nat) : Nat → Nat :=
  (List.range 9).foldl (injectStep rom pc) mem

/-
  Camera scale (A2A03Visualizer.cpp, lines 600-608; bounds from
  A2A03Visualizer.h, lines 126-127).  The float scale_ is modelled over the
  rationals: the clamping logic is purely order-theoretic and the constants
  1.0, 100.0, 9.0 and -1000.0 are exactly representable in binary floating
  point, so the modelled run agrees with the float run on these inputs.
-/

/-- getMinScale() = 1.0f (A2A03Visualizer.h, line 126). -/
def minScale : ℚ := 1

/-- getMaxScale() = 100.0f (A2A03Visualizer.h, line 127). -/
def maxScale : ℚ := 100

/-- A2A03Visualizer::setScale (lines 600-604): assign, clamp low, clamp high. -/
def setScale (scale : ℚ) : ℚ :=
  let s1 := if scale < minScale then minScale else scale
  let s2 := if s1 > maxScale then maxScale else s1
  s2

/-- A2A03Visualizer::addScale (lines 606-608). -/
def addScale (cur delta : ℚ) : ℚ :=
  setScale (cur + delta)

/-- A camera-scale mutation: either setScale(s) or addScale(d). -/
inductive ScaleOp where
  | setOp (s : ℚ)
  | addOp (d : ℚ)

/-- Apply one scale operation to the current scale. -/
def stepScale (cur : ℚ) : ScaleOp → ℚ
  | ScaleOp.setOp s => setScale s
  | ScaleOp.addOp d => addScale cur d

/-- Apply a sequence of scale operations in order. -/
def applyScaleOps (cur : ℚ) : List ScaleOp → ℚ
  | [] => cur
  | op :: rest => applyScaleOps (stepScale cur op) rest

/-
  Gate-level simulator interface.  perfect2a03 is an external library (not
  part of the visualizer sources); per the specification it is an opaque
  deterministic state machine with single half-cycle stepping, single-node
  boolean writes and a bulk byte read of all node states.
-/

/-- Modelled from the spec: the gate-level simulator operations consumed by
the engine (stepHalfCycle, writeNodeBoolean, and the node levels observed by
readAllNodesAsBytes over the simulator number of nodes); perfect2a03 itself
is not among the repository sources under src. -/
structure SimIface (σ : Type) where
  step : σ → σ
  writeNode : σ → Nat → Bool → σ
  level : σ → Nat → Bool
  numNodes : Nat

/-- n consecutive half-cycle steps (for loop over cpu_step). -/
def stepN {σ : Type} (iface : SimIface σ) : Nat → σ → σ
  | 0, s => s
  | n + 1, s => stepN iface n (iface.step s)

/-- Modelled from the spec: cpu_read_node_state_as_bytes(sim, NODE_ACTIVE,
NODE_INACTIVE, node_states_, A2A03_MAX_NODES) — bulk-read all node states
into the buffer, ACTIVE for high and INACTIVE for low (perfect2a03 is not
among the sources under src; section 4.2 step 4 of the spec).  Only indices
below both the simulator node count and the buffer length are written. -/
def harvestInto {σ : Type} (iface : SimIface σ) (s : σ) (buf : Nat → Nat) : Nat → Nat :=
  fun j =>
    if j < iface.numNodes ∧ j < A2A03_MAX_NODES then
      (if iface.level s j then NODE_ACTIVE else NODE_INACTIVE)
    else buf j

/-- Mutable state of A2A03Visualizer relevant to the modelled operations:
the node-state buffer, the opaque simulator handle (none = null), the
simulation flags and the cached register→node index tables. -/
structure Visualizer (σ : Type) where
  nodeStates : Nat → Nat
  inited : Bool
  simState : Option σ
  simEnabled : Bool
  simCyclesPerFrame : Int
  nodeA : List Int
  nodeX : List Int
  nodeY : List Int
  nodeSp : List Int
  nodeP : List Int
  nodePcl : List Int
  nodePch : List Int
  nodeAb : List Int
  nodeSq0 : List Int
  nodeSq1 : List Int
  nodeTri : List Int
  nodeNoi : List Int
  nodePcm : List Int

/-- Behavioral emulator snapshot consumed by updateFromEmulator:
getCpuState, isRunning, isLoaded, readRomByte and getApuState. -/
structure EmuState where
  a : Nat
  x : Nat
  y : Nat
  sp : Nat
  p : Nat
  pc : Nat
  running : Bool
  loaded : Bool
  rom : Nat → Nat
  sq0 : Nat
  sq1 : Nat
  tri : Nat
  noi : Nat
  pcm : Nat

/-- Loop of A2A03Visualizer::setPerfect2a03NodeBits (lines 236-241): a node
is pushed whenever its index is nonnegative (no upper bound check here). -/
def pushBitsFrom {σ : Type} (iface : SimIface σ) (s : σ) (nodes : List Int)
    (i : Nat) (value : Nat) : σ :=
  match nodes with
  | [] => s
  | n :: rest =>
    let s2 := if 0 ≤ n then iface.writeNode s n.toNat ((value &&& (1 <<< i)) != 0) else s
    pushBitsFrom iface s2 rest (i + 1) value

/-- A2A03Visualizer::setPerfect2a03NodeBits (lines 233-242), including the
early return on a null simulator handle. -/
def setPerfect2a03NodeBits {σ : Type} (iface : SimIface σ) (v : Visualizer σ)
    (nodes : List Int) (value : Nat) : Visualizer σ :=
  match v.simState with
  | none => v
  | some s => { v with simState := some (pushBitsFrom iface s nodes 0 value) }

/-- The inline P-register push loop (lines 284-290): bit 5 is skipped
unconditionally, other bits are pushed when the node index is nonnegative. -/
def pushPFrom {σ : Type} (iface : SimIface σ) (s : σ) (nodes : List Int)
    (i : Nat) (p : Nat) : σ :=
  match nodes with
  | [] => s
  | n :: rest =>
    let s2 := if i = 5 then s
      else if 0 ≤ n then iface.writeNode s n.toNat ((p &&& (1 <<< i)) != 0) else s
    pushPFrom iface s2 rest (i + 1) p

/-- Register push of the bridge (updateFromEmulator lines 277-294), on a
simulator state already known to be non-null. -/
def pushRegisters {σ : Type} (iface : SimIface σ) (v : Visualizer σ)
    (e : EmuState) (s : σ) : σ :=
  let s := pushBitsFrom iface s v.nodeA 0 e.a
  let s := pushBitsFrom iface s v.nodeX 0 e.x
  let s := pushBitsFrom iface s v.nodeY 0 e.y
  let s := pushBitsFrom iface s v.nodeSp 0 e.sp
  let s := pushPFrom iface s v.nodeP 0 e.p
  let s := pushBitsFrom iface s v.nodePcl 0 (e.pc &&& 0xFF)
  let s := pushBitsFrom iface s v.nodePch 0 ((e.pc >>> 8) &&& 0xFF)
  pushBitsFrom iface s v.nodeAb 0 e.pc

/-- A2A03Visualizer::updateNodeStatesFromSimulation (lines 704-717),
including the early return on a null simulator handle. -/
def updateNodeStatesFromSimulation {σ : Type} (iface : SimIface σ)
    (v : Visualizer σ) : Visualizer σ :=
  match v.simState with
  | none => v
  | some s => { v with nodeStates := harvestInto iface s v.nodeStates }

/-- Behavioral CPU register mirroring (updateFromEmulator lines 264-271):
cpu_state.addr is the program counter (line 259). -/
def mirrorCpu {σ : Type} (v : Visualizer σ) (e : EmuState) (buf : Nat → Nat) :
    Nat → Nat :=
  let buf := setNodeBits buf v.nodeA e.a
  let buf := setNodeBits buf v.nodeX e.x
  let buf := setNodeBits buf v.nodeY e.y
  let buf := setNodeBits buf v.nodeSp e.sp
  let buf := setNodeBits buf v.nodeP e.p
  let buf := setNodeBits buf v.nodePcl (e.pc &&& 0xFF)
  let buf := setNodeBits buf v.nodePch ((e.pc >>> 8) &&& 0xFF)
  setNodeBits buf v.nodeAb e.pc

/-- Behavioral APU output mirroring (updateFromEmulator lines 328-332). -/
def mirrorApu {σ : Type} (v : Visualizer σ) (e : EmuState) (buf : Nat → Nat) :
    Nat → Nat :=
  let buf := setNodeBits buf v.nodeSq0 e.sq0
  let buf := setNodeBits buf v.nodeSq1 e.sq1
  let buf := setNodeBits buf v.nodeTri e.tri
  let buf := setNodeBits buf v.nodeNoi e.noi
  setNodeBits buf v.nodePcm e.pcm

/-- The node-state buffer produced by pure behavioral mirroring in one
updateFromEmulator cycle: memset to NODE_INACTIVE (line 248), CPU register
mirroring, then APU output mirroring. -/
def behavioralMirror {σ : Type} (v : Visualizer σ) (e : EmuState) : Nat → Nat :=
  mirrorApu v e (mirrorCpu v e (fun _ => NODE_INACTIVE))

/-- A2A03Visualizer::updateFromEmulator (lines 244-333).  Returns the new
visualizer state together with the new simulator memory image (the bridge
writes instruction bytes into the global cpu_memory array).  The bridge block
runs only when the handle is non-null, the bridge is enabled and the emulator
is running with a ROM loaded (line 275). -/
def updateFromEmulator {σ : Type} (iface : SimIface σ) (v : Visualizer σ)
    (e : EmuState) (mem : Nat → Nat) : Visualizer σ × (Nat → Nat) :=
  if v.inited = false then (v, mem) else
  let buf := mirrorCpu v e (fun _ => NODE_INACTIVE)
  match v.simState with
  | some s =>
    if v.simEnabled && e.running && e.loaded then
      let s1 := pushRegisters iface v e s
      let mem2 := fetchInject e.rom e.pc mem
      let s2 := stepN iface 20 s1
      let buf2 := harvestInto iface s2 buf
      ({ v with simState := some s2, nodeStates := mirrorApu v e buf2 }, mem2)
    else ({ v with nodeStates := mirrorApu v e buf }, mem)
  | none => ({ v with nodeStates := mirrorApu v e buf }, mem)

/-- A2A03Visualizer::stepSimulation (lines 689-702): early return when the
handle is null or the simulation is disabled; a negative argument selects the
configured per-frame budget; then the requested half-cycles are stepped and
the node states are harvested. -/
def stepSimulation {σ : Type} (iface : SimIface σ) (v : Visualizer σ)
    (numHalfCycles : Int) : Visualizer σ :=
  match v.simState with
  | none => v
  | some s =>
    if v.simEnabled = false then v
    else
      let cycles : Int := if numHalfCycles < 0 then v.simCyclesPerFrame else numHalfCycles
      let s2 := stepN iface cycles.toNat s
      { v with simState := some s2, nodeStates := harvestInto iface s2 v.nodeStates }

/-
  Concrete instances used to evaluate the model on explicit inputs.
-/

/-- A trivial simulator over Unit whose nodes all read high. -/
def unitSim : SimIface Unit where
  step := fun s => s
  writeNode := fun s _ _ => s
  level := fun _ _ => true
  numNodes := 8192

/-- A simulator over Nat that counts half-cycle steps; register writes are
ignored and all nodes read low. -/
def natSim : SimIface Nat where
  step := Nat.succ
  writeNode := fun s _ _ => s
  level := fun _ _ => false
  numNodes := 8192

/-- A concrete visualizer state with the bridge fully active; the square-0
APU output is mapped to nodes 0-3, every other register map holds only the
sentinel -1. -/
def cexV : Visualizer Unit where
  nodeStates := fun _ => NODE_INACTIVE
  inited := true
  simState := some ()
  simEnabled := true
  simCyclesPerFrame := 100
  nodeA := [-1, -1, -1, -1, -1, -1, -1, -1]
  nodeX := [-1, -1, -1, -1, -1, -1, -1, -1]
  nodeY := [-1, -1, -1, -1, -1, -1, -1, -1]
  nodeSp := [-1, -1, -1, -1, -1, -1, -1, -1]
  nodeP := [-1, -1, -1, -1, -1, -1, -1, -1]
  nodePcl := [-1, -1, -1, -1, -1, -1, -1, -1]
  nodePch := [-1, -1, -1, -1, -1, -1, -1, -1]
  nodeAb := [-1, -1, -1, -1, -1, -1, -1, -1, -1, -1, -1, -1, -1, -1, -1, -1]
  nodeSq0 := [0, 1, 2, 3]
  nodeSq1 := [-1, -1, -1, -1]
  nodeTri := [-1, -1, -1, -1]
  nodeNoi := [-1, -1, -1, -1]
  nodePcm := [-1, -1, -1, -1, -1, -1, -1]

/-- cexV with a null simulator handle. -/
def cexVnone : Visualizer Unit :=
  { cexV with simState := none }

/-- A visualizer over the step-counting simulator with the simulation
disabled. -/
def cexVoff : Visualizer Nat :=
  { nodeStates := fun _ => NODE_INACTIVE
    inited := true
    simState := some 0
    simEnabled := false
    simCyclesPerFrame := 100
    nodeA := [-1, -1, -1, -1, -1, -1, -1, -1]
    nodeX := [-1, -1, -1, -1, -1, -1, -1, -1]
    nodeY := [-1, -1, -1, -1, -1, -1, -1, -1]
    nodeSp := [-1, -1, -1, -1, -1, -1, -1, -1]
    nodeP := [-1, -1, -1, -1, -1, -1, -1, -1]
    nodePcl := [-1, -1, -1, -1, -1, -1, -1, -1]
    nodePch := [-1, -1, -1, -1, -1, -1, -1, -1]
    nodeAb := [-1, -1, -1, -1, -1, -1, -1, -1, -1, -1, -1, -1, -1, -1, -1, -1]
    nodeSq0 := [-1, -1, -1, -1]
    nodeSq1 := [-1, -1, -1, -1]
    nodeTri := [-1, -1, -1, -1]
    nodeNoi := [-1, -1, -1, -1]
    nodePcm := [-1, -1, -1, -1, -1, -1, -1] }

/-- A visualizer over the step-counting simulator with the simulation
enabled. -/
def cexVnat : Visualizer Nat :=
  { cexVoff with simEnabled := true }

/-- A concrete emulator snapshot: running and loaded, all registers and APU
outputs zero, all ROM bytes zero. -/
def cexE : EmuState where
  a := 0
  x := 0
  y := 0
  sp := 0
  p := 0
  pc := 0
  running := true
  loaded := true
  rom := fun _ => 0
  sq0 := 0
  sq1 := 0
  tri := 0
  noi := 0
  pcm := 0

/-
  Helper lemmas about the setNodeBits loop.
-/

theorem setNodeBitsFrom_lookup (value : Nat) :
    ∀ (nodes : List Int) (buf : Nat → Nat) (i0 j : Nat),
    setNodeBitsFrom buf nodes i0 value j =
      (match lastWrite nodes j with
       | some k => bitVal value (i0 + k)
       | none => buf j) := by
  intro nodes
  induction nodes with
  | nil => intro buf i0 j; rfl
  | cons n rest ih =>
    intro buf i0 j
    rcases h : lastWrite rest j with _ | k
    · by_cases hv : 0 ≤ n ∧ n < (A2A03_MAX_NODES : Int)
      · by_cases hj : n.toNat = j
        · simp only [setNodeBitsFrom, lastWrite, ih, h, hv, hj, if_pos, and_true,
            true_and, if_true, writeAt, if_pos rfl]
          simp [writeAt, hj, Nat.add_zero]
        · have hcond : ¬ (0 ≤ n ∧ n < (A2A03_MAX_NODES : Int) ∧ n.toNat = j) := by
            intro hc; exact hj hc.2.2
          have hj2 : j ≠ n.toNat := fun hh => hj hh.symm
          simp only [setNodeBitsFrom, lastWrite, ih, h, hv, if_true, hcond, if_neg,
            writeAt]
          simp [writeAt, hj, hj2, hcond]
      · have hcond : ¬ (0 ≤ n ∧ n < (A2A03_MAX_NODES : Int) ∧ n.toNat = j) := by
          intro hc; exact hv ⟨hc.1, hc.2.1⟩
        simp only [setNodeBitsFrom, lastWrite, ih, h, hv, if_neg, hcond]
        simp [hv, hcond]
    · simp only [setNodeBitsFrom, lastWrite, ih, h]
      have harith : i0 + 1 + k = i0 + (k + 1) := by omega
      simp [harith]

theorem setNodeBitsFrom_frame (value : Nat) :
    ∀ (nodes : List Int) (buf : Nat → Nat) (i0 j : Nat),
    (∀ m ∈ nodes, ¬ (0 ≤ m ∧ m < (A2A03_MAX_NODES : Int) ∧ m.toNat = j)) →
    setNodeBitsFrom buf nodes i0 value j = buf j := by
  intro nodes
  induction nodes with
  | nil => intro buf i0 j _; rfl
  | cons n rest ih =>
    intro buf i0 j h
    have hrest : ∀ m ∈ rest, ¬ (0 ≤ m ∧ m < (A2A03_MAX_NODES : Int) ∧ m.toNat = j) :=
      fun m hm => h m (List.mem_cons_of_mem _ hm)
    have hn := h n (List.mem_cons_self _ _)
    rw [setNodeBitsFrom]
    by_cases hv : 0 ≤ n ∧ n < (A2A03_MAX_NODES : Int)
    · have hj : n.toNat ≠ j := fun hc => hn ⟨hv.1, hv.2, hc⟩
      have hj2 : j ≠ n.toNat := fun hh => hj hh.symm
      rw [ih _ _ _ hrest]
      simp [hv, writeAt, hj2]
    · rw [ih _ _ _ hrest]
      simp [hv]

theorem setNodeBitsFrom_get (value : Nat) :
    ∀ (nodes : List Int) (buf : Nat → Nat) (i0 i : Nat) (n : Int),
    nodes[i]? = some n → 0 ≤ n → n < (A2A03_MAX_NODES : Int) →
    (∀ m ∈ nodes.drop (i + 1), m ≠ n) →
    setNodeBitsFrom buf nodes i0 value n.toNat = bitVal value (i0 + i) := by
  intro nodes
  induction nodes with
  | nil => intro buf i0 i n hget; simp at hget
  | cons m rest ih =>
    intro buf i0 i n hget h0 h1 hlast
    cases i with
    | zero =>
      have hm : m = n := by simpa using hget
      subst hm
      have hrest : ∀ x ∈ rest, x ≠ m := by simpa using hlast
      rw [setNodeBitsFrom, setNodeBitsFrom_frame]
      · simp [h0, h1, writeAt]
      · intro x hx hc
        exact hrest x hx (by omega)
    | succ k =>
      have hget2 : rest[k]? = some n := by simpa using hget
      have hlast2 : ∀ x ∈ rest.drop (k + 1), x ≠ n := by
        intro x hx
        exact hlast x (by simpa using hx)
      rw [setNodeBitsFrom, ih _ _ k n hget2 h0 h1 hlast2]
      have harith : i0 + 1 + k = i0 + (k + 1) := by omega
      rw [harith]

/-
  Helper lemmas about the fetch-injection loop.
-/

theorem injectStep_eq (rom : Nat → Nat) (pc : Nat) (mem : Nat → Nat) (i : Nat) :
    injectStep rom pc mem i =
      writeAt mem ((pc + i) % 65536) (rom ((pc + i) % 65536)) := by
  have hlt : (pc + i) % 65536 ≤ 0xFFFF := by
    have := Nat.mod_lt (pc + i) (show 0 < 65536 by omega)
    omega
  simp [injectStep, hlt]

theorem foldWriteF_lookup (rom f : Nat → Nat) :
    ∀ (l : List Nat) (mem : Nat → Nat) (a : Nat),
    (l.foldl (fun m i => writeAt m (f i) (rom (f i))) mem) a =
      if ∃ i ∈ l, f i = a then rom a else mem a := by
  intro l
  induction l with
  | nil => intro mem a; simp
  | cons i rest ih =>
    intro mem a
    rw [List.foldl_cons, ih]
    by_cases hr : ∃ x ∈ rest, f x = a
    · simp [hr]
    · by_cases ha : f i = a
      · subst ha
        simp [hr, writeAt]
      · have ha2 : a ≠ f i := fun hh => ha hh.symm
        simp [hr, ha, ha2, writeAt]

/-
  Helper lemmas about the camera scale.
-/

theorem setScale_mem (s : ℚ) : minScale ≤ setScale s ∧ setScale s ≤ maxScale := by
  simp only [setScale, minScale, maxScale]
  split_ifs with h1 h2 h3 <;> exact ⟨by linarith, by linarith⟩

theorem stepScale_mem (cur : ℚ) (op : ScaleOp) :
    minScale ≤ stepScale cur op ∧ stepScale cur op ≤ maxScale := by
  cases op with
  | setOp s => exact setScale_mem s
  | addOp d => exact setScale_mem (cur + d)

theorem applyScaleOps_mem :
    ∀ (ops : List ScaleOp) (cur : ℚ), ops ≠ [] →
    minScale ≤ applyScaleOps cur ops ∧ applyScaleOps cur ops ≤ maxScale := by
  intro ops
  induction ops with
  | nil => intro cur h; exact absurd rfl h
  | cons op rest ih =>
    intro cur _
    cases rest with
    | nil => exact stepScale_mem cur op
    | cons op2 rest2 => exact ih (stepScale cur op) (by simp)

/-
  Claim theorems.
-/

/-- C1, counterexample: with pc = 0xFFFF the loop offset i = 1 gives
pc + i = 0x10000, which the claim says must not be written at all; the code
computes uint16_t addr = pc + i, wraps to address 0 and writes the ROM byte
there, so memory at address 0 changes from 7 to 9. -/
theorem fetchInject_wrap_cex :
    fetchInject (fun _ => 9) 65535 (fun _ => 7) 0 = 9 ∧ (9 : Nat) ≠ 7 := by
  decide

/-- C1 (amended): fetch injection writes the ROM byte at address
(pc + i) mod 2^16 for every i in [0,9) and leaves every other address
unchanged; when pc + i exceeds 0xFFFF the write is not suppressed but wraps
to the low address, because the address is computed in 16-bit arithmetic and
the addr <= 0xFFFF guard is vacuous.  In particular no address above 0xFFFF
is ever written. -/
theorem fetchInject_wrap_spec (rom mem : Nat → Nat) (pc a : Nat) :
    fetchInject rom pc mem a =
      if ∃ i ∈ List.range 9, (pc + i) % 65536 = a then rom a else mem a := by
  have hfun : injectStep rom pc =
      fun m i => writeAt m ((pc + i) % 65536) (rom ((pc + i) % 65536)) :=
    funext fun m => funext fun i => injectStep_eq rom pc m i
  rw [fetchInject, hfun]
  exact foldWriteF_lookup rom (fun i => (pc + i) % 65536) (List.range 9) mem a

/-- C1 witness: with pc = 0, address 3 is an injected address and receives
the ROM byte, address 20 is outside the injected window and keeps the old
memory byte. -/
theorem fetchInject_wrap_spec_wit :
    fetchInject (fun ad => ad + 1) 0 (fun _ => 0) 3 =
      (if ∃ i ∈ List.range 9, (0 + i) % 65536 = 3 then (fun ad => ad + 1) 3
       else (fun _ => (0 : Nat)) 3) ∧
    fetchInject (fun ad => ad + 1) 0 (fun _ => 0) 20 =
      (if ∃ i ∈ List.range 9, (0 + i) % 65536 = 20 then (fun ad => ad + 1) 20
       else (fun _ => (0 : Nat)) 20) :=
  ⟨fetchInject_wrap_spec (fun ad => ad + 1) (fun _ => 0) 0 3,
   fetchInject_wrap_spec (fun ad => ad + 1) (fun _ => 0) 0 20⟩

/-- C3, counterexample: the claim quantifies over every node-index sequence,
but with the duplicated sequence [5, 5] and value 1 the position-0 write
(bit 0 set, so ACTIVE) is overwritten by the position-1 write (bit 1 clear,
so INACTIVE); the final value at node 5 is INACTIVE although the claim
demands ACTIVE for i = 0. -/
theorem setNodeBits_dup_cex :
    setNodeBits (fun _ => 0) [5, 5] 1 5 = NODE_INACTIVE ∧
    NODE_INACTIVE ≠ NODE_ACTIVE := by
  decide

/-- C3 (amended): after setNodeBits, for each position i whose node index n
is valid and does not occur again at a later position (as in every register
node map, whose valid indices are distinct), the buffer at n equals ACTIVE
exactly when bit i (LSB-first) of value is set and INACTIVE otherwise. -/
theorem setNodeBits_bit_spec (buf : Nat → Nat) (nodes : List Int) (value i : Nat)
    (n : Int) (hget : nodes[i]? = some n) (h0 : 0 ≤ n)
    (h1 : n < (A2A03_MAX_NODES : Int))
    (hlast : ∀ m ∈ nodes.drop (i + 1), m ≠ n) :
    setNodeBits buf nodes value n.toNat = bitVal value i := by
  rw [setNodeBits, setNodeBitsFrom_get value nodes buf 0 i n hget h0 h1 hlast,
    Nat.zero_add]

/-- C3 witness: value 0xA5 over nodes [10..17] makes node 10 (bit 0, set)
ACTIVE and node 11 (bit 1, clear) INACTIVE. -/
theorem setNodeBits_bit_spec_wit :
    (setNodeBits (fun _ => 0) [10, 11, 12, 13, 14, 15, 16, 17] 0xA5 10 = bitVal 0xA5 0 ∧
      bitVal 0xA5 0 = NODE_ACTIVE) ∧
    (setNodeBits (fun _ => 0) [10, 11, 12, 13, 14, 15, 16, 17] 0xA5 11 = bitVal 0xA5 1 ∧
      bitVal 0xA5 1 = NODE_INACTIVE) :=
  ⟨⟨setNodeBits_bit_spec (fun _ => 0) [10, 11, 12, 13, 14, 15, 16, 17] 0xA5 0 10
      (by decide) (by decide) (by decide) (by decide), by decide⟩,
   ⟨setNodeBits_bit_spec (fun _ => 0) [10, 11, 12, 13, 14, 15, 16, 17] 0xA5 1 11
      (by decide) (by decide) (by decide) (by decide), by decide⟩⟩

/-- C4: after clearHighlight, every buffer entry (all indices below
A2A03_MAX_NODES) equals NODE_INACTIVE, for every prior buffer state. -/
theorem clearHighlight_all_inactive (buf : Nat → Nat) (j : Nat)
    (_hj : j < A2A03_MAX_NODES) :
    clearHighlight buf j = NODE_INACTIVE := rfl

/-- C4 witness: a previously HIGHLIGHTED entry is reset to INACTIVE. -/
theorem clearHighlight_all_inactive_wit :
    clearHighlight (fun _ => NODE_HIGHLIGHTED) 0 = NODE_INACTIVE :=
  clearHighlight_all_inactive (fun _ => NODE_HIGHLIGHTED) 0 (by decide)

/-- C5: setNodeBits is idempotent — applying it twice with the same node
list and value leaves the buffer identical to applying it once, for every
starting buffer. -/
theorem setNodeBits_idempotent (buf : Nat → Nat) (nodes : List Int) (value : Nat) :
    setNodeBits (setNodeBits buf nodes value) nodes value =
      setNodeBits buf nodes value := by
  funext j
  simp only [setNodeBits, setNodeBitsFrom_lookup]
  rcases h : lastWrite nodes j with _ | k <;> simp [h]

/-- C6: setNodeBits only writes the buffer entries at the valid indices
listed in its node-index sequence; every entry whose index is not among the
valid listed indices is unchanged, and sentinel or out-of-range entries are
skipped (the function is total, so no fault occurs). -/
theorem setNodeBits_frame (buf : Nat → Nat) (nodes : List Int) (value j : Nat)
    (h : ∀ m ∈ nodes, ¬ (0 ≤ m ∧ m < (A2A03_MAX_NODES : Int) ∧ m.toNat = j)) :
    setNodeBits buf nodes value j = buf j :=
  setNodeBitsFrom_frame value nodes buf 0 j h

/-- C6 witness: with the sequence [-1, 9999, 3] (a sentinel, an out-of-range
index, a valid index 3), the entry at index 7 is untouched. -/
theorem setNodeBits_frame_wit :
    setNodeBits (fun _ => 42) [-1, 9999, 3] 5 7 = 42 :=
  setNodeBits_frame (fun _ => 42) [-1, 9999, 3] 5 7 (by decide)

/-- C7: after any nonempty sequence of setScale and addScale calls the
camera scale lies in [minScale, maxScale] = [1, 100], and starting from
scale 9, addScale(-1000) yields exactly minScale. -/
theorem scale_clamped :
    (∀ (init : ℚ) (ops : List ScaleOp), ops ≠ [] →
      minScale ≤ applyScaleOps init ops ∧ applyScaleOps init ops ≤ maxScale) ∧
    addScale 9 (-1000) = minScale := by
  constructor
  · intro init ops h
    exact applyScaleOps_mem ops init h
  · norm_num [addScale, setScale, minScale, maxScale]

/-- C7 witness: starting from scale 5, the single call addScale(200) lands
inside [minScale, maxScale]. -/
theorem scale_clamped_wit :
    minScale ≤ applyScaleOps 5 [ScaleOp.addOp 200] ∧
    applyScaleOps 5 [ScaleOp.addOp 200] ≤ maxScale :=
  scale_clamped.1 5 [ScaleOp.addOp 200] (List.cons_ne_nil _ _)

/-- C8: with a null simulator handle the register push, the standalone
stepping and the harvest are exact no-ops, and when the handle is null or
the bridge is disabled updateFromEmulator performs pure behavioral mirroring
— the node-state buffer is exactly what the register mirroring wrote and the
simulator memory image is untouched. -/
theorem bridge_unavailable_noop {σ : Type} (iface : SimIface σ) (v : Visualizer σ)
    (e : EmuState) (mem : Nat → Nat) (nodes : List Int) (value : Nat) (n : Int) :
    (v.simState = none → setPerfect2a03NodeBits iface v nodes value = v) ∧
    (v.simState = none ∨ v.simEnabled = false → stepSimulation iface v n = v) ∧
    (v.simState = none → updateNodeStatesFromSimulation iface v = v) ∧
    (v.inited = true → (v.simState = none ∨ v.simEnabled = false) →
      updateFromEmulator iface v e mem =
        ({ v with nodeStates := behavioralMirror v e }, mem)) := by
  refine ⟨?_, ?_, ?_, ?_⟩
  · intro h
    simp [setPerfect2a03NodeBits, h]
  · intro h
    rcases hse : v.simState with _ | s
    · simp [stepSimulation, hse]
    · rcases h with h | h
      · rw [hse] at h; exact absurd h (by simp)
      · simp [stepSimulation, hse, h]
  · intro h
    simp [updateNodeStatesFromSimulation, h]
  · intro hin h
    rcases hse : v.simState with _ | s
    · simp [updateFromEmulator, hin, hse, behavioralMirror]
    · rcases h with h | h
      · rw [hse] at h; exact absurd h (by simp)
      · simp [updateFromEmulator, hin, hse, h, behavioralMirror]

/-- C8 witness: with a null handle, stepSimulation returns the state
unchanged and updateFromEmulator reduces to behavioral mirroring with the
memory image untouched. -/
theorem bridge_unavailable_noop_wit :
    stepSimulation unitSim cexVnone 5 = cexVnone ∧
    updateFromEmulator unitSim cexVnone cexE (fun _ => 0) =
      ({ cexVnone with nodeStates := behavioralMirror cexVnone cexE },
        (fun _ => 0)) :=
  ⟨(bridge_unavailable_noop unitSim cexVnone cexE (fun _ => 0) [] 0 0).2.1
      (Or.inl rfl),
   (bridge_unavailable_noop unitSim cexVnone cexE (fun _ => 0) [] 0 0).2.2.2
      rfl (Or.inl rfl)⟩

/-- C2, counterexample: with the bridge fully active, node 0 is reported by
the simulator (its harvested value is ACTIVE since every node of unitSim
reads high), yet at the end of updateFromEmulator the buffer holds INACTIVE,
because the behavioral APU mirroring runs after the harvest and overwrites
the APU output nodes (node 0 is bit 0 of the square-0 map with sq0 = 0). -/
theorem harvest_apu_overwrite_cex :
    (updateFromEmulator unitSim cexV cexE (fun _ => 0)).1.nodeStates 0 =
      NODE_INACTIVE ∧
    harvestInto unitSim (stepN unitSim 20 (pushRegisters unitSim cexV cexE ()))
      (fun _ => NODE_INACTIVE) 0 = NODE_ACTIVE ∧
    NODE_INACTIVE ≠ NODE_ACTIVE := by
  decide

/-- C2 (amended): when the bridge is active, for every node the simulator
reports that is not a valid index of the APU output maps, the buffer at the
end of updateFromEmulator equals the harvested gate-level value (ACTIVE for
high, INACTIVE for low); nodes listed in the APU output maps are
subsequently overwritten by the behavioral APU mirroring, which runs after
the harvest. -/
theorem harvest_wins_outside_apu {σ : Type} (iface : SimIface σ)
    (v : Visualizer σ) (e : EmuState) (mem : Nat → Nat) (s : σ) (j : Nat)
    (hin : v.inited = true) (hs : v.simState = some s)
    (hen : v.simEnabled = true) (hr : e.running = true) (hl : e.loaded = true)
    (hj1 : j < iface.numNodes) (hj2 : j < A2A03_MAX_NODES)
    (hapu : ∀ m ∈ v.nodeSq0 ++ v.nodeSq1 ++ v.nodeTri ++ v.nodeNoi ++ v.nodePcm,
      ¬ (0 ≤ m ∧ m < (A2A03_MAX_NODES : Int) ∧ m.toNat = j)) :
    (updateFromEmulator iface v e mem).1.nodeStates j =
      (if iface.level (stepN iface 20 (pushRegisters iface v e s)) j
       then NODE_ACTIVE else NODE_INACTIVE) := by
  have hsq0 : ∀ m ∈ v.nodeSq0, ¬ (0 ≤ m ∧ m < (A2A03_MAX_NODES : Int) ∧ m.toNat = j) :=
    fun m hm => hapu m (by simp [hm])
  have hsq1 : ∀ m ∈ v.nodeSq1, ¬ (0 ≤ m ∧ m < (A2A03_MAX_NODES : Int) ∧ m.toNat = j) :=
    fun m hm => hapu m (by simp [hm])
  have htri : ∀ m ∈ v.nodeTri, ¬ (0 ≤ m ∧ m < (A2A03_MAX_NODES : Int) ∧ m.toNat = j) :=
    fun m hm => hapu m (by simp [hm])
  have hnoi : ∀ m ∈ v.nodeNoi, ¬ (0 ≤ m ∧ m < (A2A03_MAX_NODES : Int) ∧ m.toNat = j) :=
    fun m hm => hapu m (by simp [hm])
  have hpcm : ∀ m ∈ v.nodePcm, ¬ (0 ≤ m ∧ m < (A2A03_MAX_NODES : Int) ∧ m.toNat = j) :=
    fun m hm => hapu m (by simp [hm])
  have hframe : ∀ (b : Nat → Nat) (nodes : List Int) (value : Nat),
      (∀ m ∈ nodes, ¬ (0 ≤ m ∧ m < (A2A03_MAX_NODES : Int) ∧ m.toNat = j)) →
      setNodeBits b nodes value j = b j :=
    fun b nodes value h => setNodeBitsFrom_frame value nodes b 0 j h
  simp only [updateFromEmulator, hin, hs, hen, hr, hl, mirrorApu]
  rw [if_neg (by decide : ¬ (true = false)),
    if_pos (by decide : (true && true && true) = true)]
  dsimp only
  rw [hframe _ _ _ hpcm, hframe _ _ _ hnoi, hframe _ _ _ htri,
    hframe _ _ _ hsq1, hframe _ _ _ hsq0]
  simp [harvestInto, hj1, hj2]

/-- C2 witness: node 5 is reported by the simulator and is not an APU output
node, so the buffer at the end of updateFromEmulator equals the harvested
gate-level value. -/
theorem harvest_wins_outside_apu_wit :
    (updateFromEmulator unitSim cexV cexE (fun _ => 0)).1.nodeStates 5 =
      (if unitSim.level (stepN unitSim 20 (pushRegisters unitSim cexV cexE ())) 5
       then NODE_ACTIVE else NODE_INACTIVE) :=
  harvest_wins_outside_apu unitSim cexV cexE (fun _ => 0) () 5 rfl rfl rfl rfl rfl
    (by decide) (by decide) (by decide)

/-- C9, counterexample: with a non-null handle (the step-counting simulator
at state 0) but the simulation disabled, stepSimulation 5 performs zero
half-cycle steps, although the claim, which only assumes a non-null handle,
demands exactly five steps (stepN would give state 5). -/
theorem stepSimulation_disabled_cex :
    (stepSimulation natSim cexVoff 5).simState = some 0 ∧
    stepN natSim 5 0 = 5 ∧ (some 0 : Option Nat) ≠ some 5 := by
  decide

/-- C9 (amended): with a non-null simulator handle and the simulation
enabled, stepSimulation n steps the simulator exactly n half-cycles when
n ≥ 0 and exactly the configured per-frame budget when n is the negative
sentinel, then harvests every node state into the buffer; no register push
and no instruction injection take place (the simulator state is advanced by
stepN alone and the memory image is not an input of the operation). -/
theorem stepSimulation_spec_enabled {σ : Type} (iface : SimIface σ)
    (v : Visualizer σ) (s : σ) (n : Int) (hs : v.simState = some s)
    (hen : v.simEnabled = true) :
    stepSimulation iface v n =
      { v with
          simState := some (stepN iface
            (if n < 0 then v.simCyclesPerFrame else n).toNat s),
          nodeStates := harvestInto iface
            (stepN iface (if n < 0 then v.simCyclesPerFrame else n).toNat s)
            v.nodeStates } := by
  simp [stepSimulation, hs, hen]

/-- C9 witness: with the step-counting simulator enabled at state 0,
stepSimulation 5 advances the simulator by exactly five half-cycles and
harvests. -/
theorem stepSimulation_spec_enabled_wit :
    stepSimulation natSim cexVnat 5 =
      { cexVnat with
          simState := some (stepN natSim
            (if (5 : Int) < 0 then cexVnat.simCyclesPerFrame else 5).toNat 0),
          nodeStates := harvestInto natSim
            (stepN natSim
              (if (5 : Int) < 0 then cexVnat.simCyclesPerFrame else 5).toNat 0)
            cexVnat.nodeStates } :=
  stepSimulation_spec_enabled natSim cexVnat 0 5 rfl rfl

/-- C10: when the simulation-enabled flag is false, stepSimulation is a
complete no-op for every argument — no half-cycle is stepped, no harvest
occurs and the whole visualizer state, the node-state buffer included, is
unchanged. -/
theorem stepSimulation_disabled_noop {σ : Type} (iface : SimIface σ)
    (v : Visualizer σ) (n : Int) (h : v.simEnabled = false) :
    stepSimulation iface v n = v := by
  rcases hse : v.simState with _ | s
  · simp [stepSimulation, hse]
  · simp [stepSimulation, hse, h]

/-- C10 witness: the disabled step-counting visualizer is unchanged by
stepSimulation 7, an explicit positive half-cycle count. -/
theorem stepSimulation_disabled_noop_wit :
    stepSimulation natSim cexVoff 7 = cexVoff :=
  stepSimulation_disabled_noop natSim cexVoff 7 rfl
